import Mathlib

/-!
# Verification of the propose → approve → execute gate of `src/app.py`

This file shallowly embeds the core logic of the Streamlit application
`src/app.py` (a conversational front-end that proposes Databricks job runs,
requires human approval, then dispatches them) and proves properties of the
embedded definitions.

Conventions of the embedding:

* Python dict/list/str/int values flowing through the app are modelled by the
  `Json` inductive (JSON numbers are modelled as integers; no claim involves
  fractional numbers).
* Remote calls (`w.serving_endpoints.query` in `call_agent`, `w.jobs.run_now`)
  are oracles: their outcomes are inputs of the corresponding events, and the
  fact that a call was issued is recorded in an effect trace.
* A Python exception that escapes a Streamlit handler aborts the script run;
  `st.session_state` keeps whatever mutations already happened.  The embedded
  handlers therefore return the session exactly as mutated up to the raise.
* `st.markdown` / `st.error` / `st.success` render transient output for the
  current run only; they are recorded as effects, distinct from
  `st.session_state.messages`, the persistent ordered message history.
-/

/-- Model of the Python values the app manipulates (dicts produced by
`json.loads`, strings, ints, lists, booleans, `None`). -/
inductive Json where
  | null : Json
  | bool (b : Bool) : Json
  | num (n : Int) : Json
  | str (s : String) : Json
  | arr (elems : List Json) : Json
  | obj (fields : List (String × Json)) : Json

/-- Python truthiness (`if x:`): empty containers, empty strings, zero and
`None` are falsy. -/
def pyTruthy : Json → Bool
  | .null => false
  | .bool b => b
  | .num n => n ≠ 0
  | .str s => !s.isEmpty
  | .arr l => !l.isEmpty
  | .obj l => !l.isEmpty

/-- Python exceptions that the embedded code can raise. -/
inductive PyErr where
  | keyError (key : String) : PyErr
  | typeError (msg : String) : PyErr
  | valueError (msg : String) : PyErr
  /-- the remote `run_now` call itself failed -/
  | backendError : PyErr
  deriving DecidableEq, Repr

/-- `d[k]` on a Python value: a `KeyError` on a dict without the key, a
`TypeError` when indexing a non-dict with a string key. -/
def getItem (j : Json) (k : String) : Except PyErr Json :=
  match j with
  | .obj fields =>
      match fields.lookup k with
      | some v => .ok v
      | none => .error (.keyError k)
  | _ => .error (.typeError "value is not subscriptable by a string key")

/-- `d.get(k, default)` on a dict.  (In the source it is only ever reached on
a dict, after a successful `d[k]` access.) -/
def pyGet (j : Json) (k : String) (default : Json) : Json :=
  match j with
  | .obj fields => (fields.lookup k).getD default
  | _ => default

/-- Python `x == "run_databricks_job"`: true exactly on that string value
(comparison of a non-string with a string is `False`, no exception). -/
def isRunDatabricksJobTag : Json → Bool
  | .str s => s = "run_databricks_job"
  | _ => false

/-!
## Configuration (`JOB_CATALOG`, `JOB_NAME_TO_ID`)
-/

/-- `JOB_CATALOG`: label ↦ (job_name, job_id). -/
def JOB_CATALOG : List (String × String × Int) :=
  [("test db job", ("Test_DB_Job1", 1234567890))]

/-- `JOB_NAME_TO_ID = {v["job_name"]: v["job_id"] for v in JOB_CATALOG.values()}`. -/
def JOB_NAME_TO_ID : List (String × Int) :=
  JOB_CATALOG.map (fun p => (p.2.1, p.2.2))

/-- `JOB_NAME_TO_ID[job_name]` where `job_name` is an arbitrary Python value:
a `KeyError` when the key is absent (shown with the stringified key), a
`TypeError` when the key is unhashable (a dict or a list). -/
def lookupJobId (jobName : Json) : Except PyErr Int :=
  match jobName with
  | .str s =>
      match JOB_NAME_TO_ID.lookup s with
      | some id => .ok id
      | none => .error (.keyError s)
  | .obj _ => .error (.typeError "unhashable type")
  | .arr _ => .error (.typeError "unhashable type")
  | _ => .error (.keyError "non-string key")

/-!
## Serialization (models of `json.dumps` and `str()` in f-strings)

Only the fact that these functions produce some deterministic rendering
matters to the claims; `indent=2` pretty-printing and Python `repr` quoting of
containers are abstracted to a compact rendering.
-/

mutual

/-- Model of `json.dumps` (indentation abstracted). -/
def jsonDumps : Json → String
  | .null => "null"
  | .bool true => "true"
  | .bool false => "false"
  | .num n => toString n
  | .str s => "\"" ++ s ++ "\""
  | .arr l => "[" ++ jsonDumpsList l ++ "]"
  | .obj l => "\x7b" ++ jsonDumpsFields l ++ "\x7d"

def jsonDumpsList : List Json → String
  | [] => ""
  | [x] => jsonDumps x
  | x :: y :: xs => jsonDumps x ++ ", " ++ jsonDumpsList (y :: xs)

def jsonDumpsFields : List (String × Json) → String
  | [] => ""
  | [(k, v)] => "\"" ++ k ++ "\": " ++ jsonDumps v
  | (k, v) :: y :: xs => "\"" ++ k ++ "\": " ++ jsonDumps v ++ ", " ++ jsonDumpsFields (y :: xs)

end

/-- Model of `str(x)` as used by f-string interpolation. -/
def pyStr : Json → String
  | .str s => s
  | .num n => toString n
  | .bool true => "True"
  | .bool false => "False"
  | .null => "None"
  | .arr l => jsonDumps (.arr l)
  | .obj l => jsonDumps (.obj l)

/-!
## Effects

Side effects of one Streamlit script run, in program order: the remote
`w.jobs.run_now` call and the transient UI output (`st.markdown`, `st.error`,
`st.success`).  Only `runNow` reaches the job-execution backend.
-/

inductive Effect where
  | runNow (jobId : Int) (notebookParams : Json) : Effect
  | stMarkdown (text : String) : Effect
  | stError (text : String) : Effect
  | stSuccess (text : String) : Effect

/-- Is this effect a call to the job-execution backend? -/
def Effect.isRunNow : Effect → Bool
  | .runNow _ _ => true
  | _ => false

/-!
## Executor (`execute_databricks_job`, `execute_plan`)

The remote `run_now` call is an oracle `backend : Except Unit Int`: the job
run either fails remotely or yields a run id.  Issuing the call is recorded
as a `runNow` effect whether or not the remote call then fails.
-/

/-- `execute_databricks_job(args)` of `src/app.py`. -/
def execute_databricks_job (args : Json) (backend : Except Unit Int) :
    List Effect × Except PyErr String :=
  match getItem args "job_name" with
  | .error e => ([], .error e)
  | .ok jobName =>
      let parameters := pyGet args "parameters" (Json.obj [])
      match lookupJobId jobName with
      | .error e => ([], .error e)
      | .ok jobId =>
          match backend with
          | .error _ => ([.runNow jobId parameters], .error .backendError)
          | .ok runId =>
              ([.runNow jobId parameters],
               .ok ("🚀 Job `" ++ pyStr jobName ++ "` started\nRun ID: `"
                     ++ toString runId ++ "`"))

/-- `execute_plan(plan)` of `src/app.py`: dispatch on `plan["action"]`,
`ValueError("Unknown action")` for any other action tag. -/
def execute_plan (plan : Json) (backend : Except Unit Int) :
    List Effect × Except PyErr String :=
  match getItem plan "action" with
  | .error e => ([], .error e)
  | .ok act =>
      if isRunDatabricksJobTag act then
        match getItem plan "arguments" with
        | .error e => ([], .error e)
        | .ok args => execute_databricks_job args backend
      else
        ([], .error (.valueError "Unknown action"))

/-!
## Plan extractor (`extract_json`)

`re.search` with the pattern « an opening brace, then any characters
(including newlines), greedily, then a closing brace ».  The leftmost match
starts at the first opening brace of the text; the greedy middle makes the
match end at the last closing brace of the text.  `None` when the text has no
opening brace followed (strictly later) by a closing brace.
-/

/-- Index of the first occurrence of `c` in the list, if any. -/
def firstIdxOf (c : Char) : List Char → Option Nat
  | [] => none
  | x :: xs => if x == c then some 0 else (firstIdxOf c xs).map (· + 1)

/-- Index of the last occurrence of `c` in the list, if any. -/
def lastIdxOf (c : Char) : List Char → Option Nat
  | [] => none
  | x :: xs =>
      match lastIdxOf c xs with
      | some j => some (j + 1)
      | none => if x == c then some 0 else none

/-- `extract_json(text)` of `src/app.py`. -/
def extract_json (text : String) : Option String :=
  let cs := text.toList
  match firstIdxOf '\x7b' cs, lastIdxOf '\x7d' cs with
  | some i, some j =>
      if i < j then some (String.mk ((cs.drop i).take (j - i + 1))) else none
  | _, _ => none

/-!
## Model of `json.loads`

A recursive-descent parser for the JSON fragment the app exchanges: objects,
arrays, strings (with the common escapes), integers, booleans, `null`.
Like `json.loads`, it fails unless the whole input (up to whitespace) is one
value, duplicate object keys keep the first position and the last value, and
a trailing comma or stray trailing text is an error.  (Fractional numbers and
`\u` escapes are outside the model; no claim involves them.)
-/

def skipWs : List Char → List Char
  | [] => []
  | c :: cs => if c == ' ' || c == '\t' || c == '\n' || c == '\r' then skipWs cs else c :: cs

/-- Body of a JSON string literal, after the opening quote. -/
def parseStrBody (acc : List Char) : List Char → Option (String × List Char)
  | [] => none
  | c :: cs =>
      if c == '"' then some (String.mk acc.reverse, cs)
      else if c == '\\' then
        match cs with
        | [] => none
        | e :: cs' =>
            let ec : Option Char :=
              if e == '"' then some '"'
              else if e == '\\' then some '\\'
              else if e == '/' then some '/'
              else if e == 'n' then some '\n'
              else if e == 't' then some '\t'
              else if e == 'r' then some '\r'
              else none
            match ec with
            | some ch => parseStrBody (ch :: acc) cs'
            | none => none
      else parseStrBody (c :: acc) cs

/-- Leading run of decimal digits. -/
def takeDigits : List Char → List Char × List Char
  | [] => ([], [])
  | c :: cs =>
      if c.isDigit then
        let (ds, r) := takeDigits cs
        (c :: ds, r)
      else ([], c :: cs)

def digitsToNat (ds : List Char) : Nat :=
  ds.foldl (fun a c => a * 10 + (c.toNat - 48)) 0

/-- Python-dict insertion of a field in front of fields parsed later: a
duplicated key keeps its first position and the last value. -/
def insertDictField (k : String) (v : Json) (fs : List (String × Json)) :
    List (String × Json) :=
  match fs.lookup k with
  | some v' => (k, v') :: fs.filter (fun p => p.1 ≠ k)
  | none => (k, v) :: fs

mutual

def parseVal (fuel : Nat) (cs : List Char) : Option (Json × List Char) :=
  match fuel with
  | 0 => none
  | fuel + 1 =>
      match skipWs cs with
      | [] => none
      | c :: rest =>
          if c == '"' then
            (parseStrBody [] rest).map (fun p => (Json.str p.1, p.2))
          else if c == '\x7b' then
            match skipWs rest with
            | '\x7d' :: r2 => some (Json.obj [], r2)
            | r2 => (parseFields fuel r2).map (fun p => (Json.obj p.1, p.2))
          else if c == '[' then
            match skipWs rest with
            | ']' :: r2 => some (Json.arr [], r2)
            | r2 => (parseElems fuel r2).map (fun p => (Json.arr p.1, p.2))
          else if c == 't' then
            match rest with
            | 'r' :: 'u' :: 'e' :: r2 => some (Json.bool true, r2)
            | _ => none
          else if c == 'f' then
            match rest with
            | 'a' :: 'l' :: 's' :: 'e' :: r2 => some (Json.bool false, r2)
            | _ => none
          else if c == 'n' then
            match rest with
            | 'u' :: 'l' :: 'l' :: r2 => some (Json.null, r2)
            | _ => none
          else if c == '-' then
            match takeDigits rest with
            | ([], _) => none
            | (ds, r) => some (Json.num (-(digitsToNat ds : Int)), r)
          else if c.isDigit then
            match takeDigits (c :: rest) with
            | (ds, r) => some (Json.num (digitsToNat ds), r)
          else none

/-- One or more `"key": value` fields followed by a closing brace. -/
def parseFields (fuel : Nat) (cs : List Char) :
    Option (List (String × Json) × List Char) :=
  match fuel with
  | 0 => none
  | fuel + 1 =>
      match skipWs cs with
      | '"' :: rest =>
          match parseStrBody [] rest with
          | none => none
          | some (k, r1) =>
              match skipWs r1 with
              | ':' :: r2 =>
                  match parseVal fuel r2 with
                  | none => none
                  | some (v, r3) =>
                      match skipWs r3 with
                      | ',' :: r4 =>
                          match parseFields fuel r4 with
                          | none => none
                          | some (fs, r5) => some (insertDictField k v fs, r5)
                      | '\x7d' :: r4 => some ([(k, v)], r4)
                      | _ => none
              | _ => none
      | _ => none

/-- One or more array elements followed by a closing bracket. -/
def parseElems (fuel : Nat) (cs : List Char) : Option (List Json × List Char) :=
  match fuel with
  | 0 => none
  | fuel + 1 =>
      match parseVal fuel cs with
      | none => none
      | some (v, r1) =>
          match skipWs r1 with
          | ',' :: r2 => (parseElems fuel r2).map (fun p => (v :: p.1, p.2))
          | ']' :: r2 => some ([v], r2)
          | _ => none

end

/-- `json.loads`: the whole string (up to whitespace) must be one value. -/
def parseJson (s : String) : Option Json :=
  let cs := s.toList
  match parseVal (2 * cs.length + 2) cs with
  | some (v, rest) => if (skipWs rest).isEmpty then some v else none
  | none => none

/-!
## Session state and input events

`st.session_state` holds the ordered message history (`messages`, the
transcript the UI renders) and the single optional `pending_plan`.  The UI
delivers one input event per script run: a chat submission (with the
translator's reply, or its failure, as an oracle), an Approve click or a
Cancel click.
-/

structure ChatMsg where
  role : String
  content : String

structure Session where
  messages : List ChatMsg
  pending_plan : Option Json

/-- The fresh session: `messages = []`, `pending_plan = None`. -/
def initSession : Session := ⟨[], none⟩

/-- The guard `if st.session_state.pending_plan:` of the approval controls —
Python truthiness, so an empty-dict plan also leaves the controls hidden. -/
def gateOpen (s : Session) : Bool :=
  match s.pending_plan with
  | some plan => pyTruthy plan
  | none => false

/-- The dry-run summary rendered when a plan is parsed. -/
def dry_run_md (act args : Json) : String :=
  "### 🧪 Dry-Run Plan\n\n**Action:** `" ++ pyStr act
    ++ "`\n\n**Arguments:**\n```json\n" ++ jsonDumps args
    ++ "\n```\n\n⚠️ **Waiting for approval**"

/-- The `if user_input:` handler of `src/app.py`.

The translator reply is an oracle argument.  Program order: append the user
message; extract; when a JSON substring was found, `json.loads` it inside
`try`; on success store it as `pending_plan` *before* building the dry-run
summary, so a `KeyError` on `plan["action"]` or `plan["arguments"]` lands in
the `except` with the plan already pending; `st.rerun()` is also inside the
`try`, so its control-flow exception is caught by `except Exception` and only
adds transient error output.  A reply without a JSON substring (or a falsy
match) is appended as a plain assistant message. -/
def handle_submit (s : Session) (userInput reply : String) : Session × List Effect :=
  let s1 : Session := { s with messages := s.messages ++ [⟨"user", userInput⟩] }
  let conversational : Session × List Effect :=
    ({ s1 with messages := s1.messages ++ [⟨"assistant", reply⟩] }, [.stMarkdown reply])
  match extract_json reply with
  | none => conversational
  | some jsonText =>
      if jsonText.isEmpty then conversational
      else
        match parseJson jsonText with
        | none => (s1, [.stError "Failed to parse plan", .stMarkdown reply])
        | some plan =>
            let s2 : Session := { s1 with pending_plan := some plan }
            match getItem plan "action" with
            | .error _ => (s2, [.stError "Failed to parse plan", .stMarkdown reply])
            | .ok act =>
                match getItem plan "arguments" with
                | .error _ => (s2, [.stError "Failed to parse plan", .stMarkdown reply])
                | .ok args =>
                    let md := dry_run_md act args
                    ({ s2 with messages := s2.messages ++ [⟨"assistant", md⟩] },
                     [.stMarkdown md, .stError "Failed to parse plan", .stMarkdown reply])

/-- The `if cancel:` handler: clear the pending plan and show a transient
success notice.  Nothing is appended to `messages`. -/
def handle_cancel (s : Session) : Session × List Effect :=
  if gateOpen s then
    ({ s with pending_plan := none }, [.stSuccess "Action canceled"])
  else (s, [])

/-- The `if approve:` handler: run `execute_plan` on the pending plan.  Only
on success are `pending_plan` cleared and the result appended; an exception
escaping `execute_plan` aborts the run with the session state untouched (in
particular the plan stays pending). -/
def handle_approve (s : Session) (backend : Except Unit Int) : Session × List Effect :=
  if gateOpen s then
    match s.pending_plan with
    | some plan =>
        match execute_plan plan backend with
        | (effs, .ok result) =>
            ({ messages := s.messages
                 ++ [⟨"assistant", "🚀 **Execution confirmed**\n\n" ++ result⟩],
               pending_plan := none },
             effs ++ [.stSuccess result])
        | (effs, .error _) => (s, effs)
    | none => (s, [])
  else (s, [])

/-- One UI input event per script run.  `submit` carries the translator's
reply as an oracle; `submitFail` is a submission whose remote translator call
raised (the user message is already appended when `call_agent` runs). -/
inductive Event where
  | submit (userInput reply : String) : Event
  | submitFail (userInput : String) : Event
  | approve (backend : Except Unit Int) : Event
  | cancel : Event

/-- One processed input event. -/
def step (s : Session) : Event → Session × List Effect
  | .submit ui reply => handle_submit s ui reply
  | .submitFail ui => ({ s with messages := s.messages ++ [⟨"user", ui⟩] }, [])
  | .approve backend => handle_approve s backend
  | .cancel => handle_cancel s

/-- A whole interaction: fold `step` over an event sequence, accumulating the
effect trace. -/
def runEvents (s : Session) : List Event → Session × List Effect
  | [] => (s, [])
  | e :: es =>
      let p := step s e
      let q := runEvents p.1 es
      (q.1, p.2 ++ q.2)

/-- Is this event an Approve click? -/
def Event.isApprove : Event → Bool
  | .approve _ => true
  | _ => false

/-!
## Fixtures for concrete witnesses and counterexamples
-/

/-- A well-formed plan for a configurable job name (empty parameters). -/
def planRun (jobName : String) : Json :=
  Json.obj [("action", Json.str "run_databricks_job"),
            ("arguments", Json.obj [("job_name", Json.str jobName),
                                    ("parameters", Json.obj [])])]

/-- A session whose gate holds the given pending plan. -/
def sessionPending (p : Json) : Session := ⟨[], some p⟩

/-- Does the decoded plan object carry `arguments.job_name`?  (What the spec
says the extractor must validate before handing the plan to the gate.) -/
def hasJobNameKey (plan : Json) : Bool :=
  match getItem plan "arguments" with
  | .ok args =>
      match getItem args "job_name" with
      | .ok _ => true
      | .error _ => false
  | .error _ => false

/-!
## Helper lemmas
-/

theorem gateOpen_pending {s : Session} (h : gateOpen s = true) :
    s.pending_plan ≠ none := by
  intro hn
  unfold gateOpen at h
  rw [hn] at h
  exact Bool.noConfusion h

theorem pyGet_of_getItem_ok {args : Json} {k : String} {v : Json} (d : Json)
    (h : getItem args k = Except.ok v) : pyGet args k d = v := by
  cases args with
  | obj fields =>
      simp only [getItem] at h
      simp only [pyGet]
      cases hl : fields.lookup k with
      | none => rw [hl] at h; exact Except.noConfusion h
      | some v' =>
          rw [hl] at h
          cases h
          rfl
  | null => exact Except.noConfusion h
  | bool b => exact Except.noConfusion h
  | num n => exact Except.noConfusion h
  | str s => exact Except.noConfusion h
  | arr l => exact Except.noConfusion h

theorem getItem_obj_lookup {fields : List (String × Json)} {k : String} {v : Json}
    (h : fields.lookup k = some v) : getItem (Json.obj fields) k = Except.ok v := by
  simp only [getItem]
  rw [h]

theorem lookup_append_left {l1 l2 : List (String × Json)} {k : String} {v : Json}
    (h : l1.lookup k = some v) : (l1 ++ l2).lookup k = some v := by
  induction l1 with
  | nil => exact Option.noConfusion h
  | cons p l1 ih =>
      rcases p with ⟨k', v'⟩
      rw [List.cons_append]
      simp only [List.lookup] at h ⊢
      cases hk : k == k' with
      | true => rw [hk] at h; exact h
      | false => rw [hk] at h; exact ih h

theorem execute_plan_dispatch {plan act args : Json} (b : Except Unit Int)
    (ha : getItem plan "action" = Except.ok act)
    (ht : isRunDatabricksJobTag act = true)
    (hg : getItem plan "arguments" = Except.ok args) :
    execute_plan plan b = execute_databricks_job args b := by
  simp only [execute_plan, ha, ht, hg, if_true]

theorem execute_databricks_job_ok {args : Json} {jn : String} {jid : Int} {ps : Json}
    (rid : Int)
    (hj : getItem args "job_name" = Except.ok (Json.str jn))
    (hps : pyGet args "parameters" (Json.obj []) = ps)
    (hid : JOB_NAME_TO_ID.lookup jn = some jid) :
    execute_databricks_job args (Except.ok rid) =
      ([Effect.runNow jid ps],
       Except.ok ("🚀 Job `" ++ jn ++ "` started\nRun ID: `" ++ toString rid ++ "`")) := by
  simp only [execute_databricks_job, hj, hps, lookupJobId, hid, pyStr]

/-- `handle_approve` when the gate is open and the Executor raises: the run
aborts, the session (pending plan included) is untouched. -/
theorem handle_approve_error {s : Session} {plan : Json} {b : Except Unit Int}
    {effs : List Effect} {err : PyErr}
    (hp : s.pending_plan = some plan) (ht : pyTruthy plan = true)
    (hx : execute_plan plan b = (effs, Except.error err)) :
    step s (Event.approve b) = (s, effs) := by
  have hg : gateOpen s = true := by unfold gateOpen; rw [hp]; exact ht
  show handle_approve s b = (s, effs)
  unfold handle_approve
  simp only [hg, if_true, hp, hx]

/-- `handle_approve` when the gate is open and the Executor succeeds: the
pending plan is cleared and the result is appended to the transcript. -/
theorem handle_approve_ok {s : Session} {plan : Json} {b : Except Unit Int}
    {effs : List Effect} {r : String}
    (hp : s.pending_plan = some plan) (ht : pyTruthy plan = true)
    (hx : execute_plan plan b = (effs, Except.ok r)) :
    step s (Event.approve b) =
      ({ messages := s.messages
           ++ [⟨"assistant", "🚀 **Execution confirmed**\n\n" ++ r⟩],
         pending_plan := none },
       effs ++ [Effect.stSuccess r]) := by
  have hg : gateOpen s = true := by unfold gateOpen; rw [hp]; exact ht
  show handle_approve s b = _
  unfold handle_approve
  simp only [hg, if_true, hp, hx]

theorem lookup_append_right {l1 l2 : List (String × Json)} {k : String}
    (h : l1.lookup k = none) : (l1 ++ l2).lookup k = l2.lookup k := by
  induction l1 with
  | nil => rfl
  | cons p l1 ih =>
      rcases p with ⟨k', v'⟩
      rw [List.cons_append]
      simp only [List.lookup] at h ⊢
      cases hk : k == k' with
      | true => rw [hk] at h; exact Option.noConfusion h
      | false => rw [hk] at h; exact ih h

theorem execute_databricks_job_backend_err {args : Json} {jn : String} {jid : Int}
    {ps : Json} (u : Unit)
    (hj : getItem args "job_name" = Except.ok (Json.str jn))
    (hps : pyGet args "parameters" (Json.obj []) = ps)
    (hid : JOB_NAME_TO_ID.lookup jn = some jid) :
    execute_databricks_job args (Except.error u) =
      ([Effect.runNow jid ps], Except.error PyErr.backendError) := by
  simp only [execute_databricks_job, hj, hps, lookupJobId, hid]

/-- C7: `execute_plan` fails with the unknown-action `ValueError` whenever
the plan's action is anything but the single supported tag
`"run_databricks_job"` (and issues no backend call), and when the tag
matches and the job name resolves it issues exactly one `run_now` call with
the resolved backend id and the supplied parameter mapping, returning a
confirmation message containing the backend-assigned run id. -/
theorem C7_executor_contract :
    (∀ (plan act : Json) (b : Except Unit Int),
        getItem plan "action" = Except.ok act →
        isRunDatabricksJobTag act = false →
        execute_plan plan b = ([], Except.error (PyErr.valueError "Unknown action")))
    ∧ (∀ (plan args ps : Json) (jn : String) (jid rid : Int),
        getItem plan "action" = Except.ok (Json.str "run_databricks_job") →
        getItem plan "arguments" = Except.ok args →
        getItem args "job_name" = Except.ok (Json.str jn) →
        getItem args "parameters" = Except.ok ps →
        JOB_NAME_TO_ID.lookup jn = some jid →
        (execute_plan plan (Except.ok rid)).1 = [Effect.runNow jid ps]
        ∧ ∃ pre post : String,
            (execute_plan plan (Except.ok rid)).2
              = Except.ok (pre ++ toString rid ++ post)) := by
  constructor
  · intro plan act b ha hf
    simp [execute_plan, ha, hf]
  · intro plan args ps jn jid rid ha hg hj hps hid
    rw [execute_plan_dispatch (Except.ok rid) ha (by rfl) hg,
        execute_databricks_job_ok rid hj (pyGet_of_getItem_ok _ hps) hid]
    exact ⟨rfl, "🚀 Job `" ++ jn ++ "` started\nRun ID: `", "`", rfl⟩

/-- Witness for C7 at a concrete unsupported action and at the catalogued
job. -/
theorem C7_executor_contract_witness :
    execute_plan (Json.obj [("action", Json.str "delete_everything")]) (Except.ok 1)
      = ([], Except.error (PyErr.valueError "Unknown action"))
    ∧ ((execute_plan (planRun "Test_DB_Job1") (Except.ok 42)).1
         = [Effect.runNow 1234567890 (Json.obj [])]
       ∧ ∃ pre post : String,
           (execute_plan (planRun "Test_DB_Job1") (Except.ok 42)).2
             = Except.ok (pre ++ toString (42 : Int) ++ post)) :=
  ⟨C7_executor_contract.1 _ (Json.str "delete_everything") _ rfl rfl,
   C7_executor_contract.2 (planRun "Test_DB_Job1")
     (Json.obj [("job_name", Json.str "Test_DB_Job1"), ("parameters", Json.obj [])])
     (Json.obj []) "Test_DB_Job1" 1234567890 42 rfl rfl rfl rfl rfl⟩

/-- C4: approving a pending plan whose `job_name` is absent from the Job
Catalog produces the unknown-job `KeyError` and the `run_now` backend call is
never issued. -/
theorem C4_unknown_job_no_backend_call (s : Session) (plan args : Json) (jn : String)
    (b : Except Unit Int)
    (hp : s.pending_plan = some plan) (ht : pyTruthy plan = true)
    (ha : getItem plan "action" = Except.ok (Json.str "run_databricks_job"))
    (hg : getItem plan "arguments" = Except.ok args)
    (hj : getItem args "job_name" = Except.ok (Json.str jn))
    (hcat : JOB_NAME_TO_ID.lookup jn = none) :
    (execute_plan plan b).2 = Except.error (PyErr.keyError jn)
    ∧ (step s (Event.approve b)).2 = []
    ∧ ∀ (jid : Int) (ps : Json), Effect.runNow jid ps ∉ (step s (Event.approve b)).2 := by
  have hx : execute_plan plan b = ([], Except.error (PyErr.keyError jn)) := by
    rw [execute_plan_dispatch b ha (by rfl) hg]
    simp only [execute_databricks_job, hj, lookupJobId, hcat]
  have hs := handle_approve_error hp ht hx
  refine ⟨by rw [hx], by rw [hs], ?_⟩
  intro jid ps hmem
  rw [hs] at hmem
  exact List.not_mem_nil _ hmem

/-- Witness for C4: the scenario plan referencing `unknown_job`. -/
theorem C4_unknown_job_no_backend_call_witness :
    (execute_plan (planRun "unknown_job") (Except.ok 1)).2
      = Except.error (PyErr.keyError "unknown_job")
    ∧ (step (sessionPending (planRun "unknown_job")) (Event.approve (Except.ok 1))).2 = []
    ∧ ∀ (jid : Int) (ps : Json),
        Effect.runNow jid ps
          ∉ (step (sessionPending (planRun "unknown_job")) (Event.approve (Except.ok 1))).2 :=
  C4_unknown_job_no_backend_call (sessionPending (planRun "unknown_job"))
    (planRun "unknown_job")
    (Json.obj [("job_name", Json.str "unknown_job"), ("parameters", Json.obj [])])
    "unknown_job" (Except.ok 1) rfl rfl rfl rfl rfl rfl

/-- C10: an approved plan whose arguments lack the `parameters` key executes
without failing: `args.get("parameters", {})` substitutes the empty mapping,
the backend call carries no notebook parameters, and the behavior is
identical to a plan with an explicit empty parameters object. -/
theorem C10_missing_parameters_defaults (fields : List (String × Json)) (jn : String)
    (jid : Int) (b : Except Unit Int)
    (hnop : fields.lookup "parameters" = none)
    (hjn : fields.lookup "job_name" = some (Json.str jn))
    (hid : JOB_NAME_TO_ID.lookup jn = some jid) :
    execute_databricks_job (Json.obj fields) b
      = execute_databricks_job (Json.obj (fields ++ [("parameters", Json.obj [])])) b
    ∧ (execute_databricks_job (Json.obj fields) b).1
        = [Effect.runNow jid (Json.obj [])]
    ∧ ∀ rid : Int, b = Except.ok rid →
        ∃ msg : String,
          (execute_databricks_job (Json.obj fields) b).2 = Except.ok msg := by
  have h1 : getItem (Json.obj fields) "job_name" = Except.ok (Json.str jn) :=
    getItem_obj_lookup hjn
  have h2 : getItem (Json.obj (fields ++ [("parameters", Json.obj [])])) "job_name"
      = Except.ok (Json.str jn) :=
    getItem_obj_lookup (lookup_append_left hjn)
  have h3 : pyGet (Json.obj fields) "parameters" (Json.obj []) = Json.obj [] := by
    simp only [pyGet, hnop, Option.getD_none]
  have h4 : pyGet (Json.obj (fields ++ [("parameters", Json.obj [])])) "parameters"
      (Json.obj []) = Json.obj [] := by
    simp only [pyGet, lookup_append_right hnop]
    rfl
  refine ⟨?_, ?_, ?_⟩
  · cases b with
    | ok rid =>
        rw [execute_databricks_job_ok rid h1 h3 hid,
            execute_databricks_job_ok rid h2 h4 hid]
    | error u =>
        rw [execute_databricks_job_backend_err u h1 h3 hid,
            execute_databricks_job_backend_err u h2 h4 hid]
  · cases b with
    | ok rid => rw [execute_databricks_job_ok rid h1 h3 hid]
    | error u => rw [execute_databricks_job_backend_err u h1 h3 hid]
  · intro rid hb
    subst hb
    exact ⟨_, by rw [execute_databricks_job_ok rid h1 h3 hid]⟩

/-- Witness for C10: arguments carrying only the catalogued job name. -/
theorem C10_missing_parameters_defaults_witness :
    execute_databricks_job (Json.obj [("job_name", Json.str "Test_DB_Job1")])
        (Except.ok 7)
      = execute_databricks_job
          (Json.obj ([("job_name", Json.str "Test_DB_Job1")]
             ++ [("parameters", Json.obj [])])) (Except.ok 7)
    ∧ (execute_databricks_job (Json.obj [("job_name", Json.str "Test_DB_Job1")])
        (Except.ok 7)).1 = [Effect.runNow 1234567890 (Json.obj [])]
    ∧ ∀ rid : Int, (Except.ok 7 : Except Unit Int) = Except.ok rid →
        ∃ msg : String,
          (execute_databricks_job (Json.obj [("job_name", Json.str "Test_DB_Job1")])
            (Except.ok 7)).2 = Except.ok msg :=
  C10_missing_parameters_defaults [("job_name", Json.str "Test_DB_Job1")]
    "Test_DB_Job1" 1234567890 (Except.ok 7) rfl rfl rfl

/-- C1 as stated is false: the `approve` handler has no exception handling,
so when `execute_plan` raises (here: the unknown-job `KeyError`), the script
run aborts before `pending_plan` is cleared — the plan is NOT consumed and
stays pending. -/
theorem C1_counterexample :
    (step (sessionPending (planRun "unknown_job")) (Event.approve (Except.ok 1))).1.pending_plan
      ≠ none := by
  intro h
  rw [show (step (sessionPending (planRun "unknown_job"))
        (Event.approve (Except.ok 1))).1.pending_plan
      = some (planRun "unknown_job") from rfl] at h
  exact Option.noConfusion h

/-- C1 amended: after `approve()` on a truthy pending plan, the gate returns
to IDLE (`pending_plan = none`) when the Executor succeeds, but when the
Executor raises, the exception propagates and the very same plan is still
pending. -/
theorem C1_approve_clears_only_on_success (s : Session) (plan : Json)
    (b : Except Unit Int)
    (hp : s.pending_plan = some plan) (ht : pyTruthy plan = true) :
    (∀ r : String, (execute_plan plan b).2 = Except.ok r →
        (step s (Event.approve b)).1.pending_plan = none)
    ∧ (∀ err : PyErr, (execute_plan plan b).2 = Except.error err →
        (step s (Event.approve b)).1.pending_plan = some plan) := by
  constructor
  · intro r hr
    have hx : execute_plan plan b = ((execute_plan plan b).1, Except.ok r) := by
      rw [← hr]
    rw [handle_approve_ok hp ht hx]
  · intro err herr
    have hx : execute_plan plan b = ((execute_plan plan b).1, Except.error err) := by
      rw [← herr]
    rw [handle_approve_error hp ht hx]
    exact hp

/-- Witness for the amended C1: the success side at the catalogued job and
the failure side at an unknown job. -/
theorem C1_approve_clears_only_on_success_witness :
    ((∀ r : String,
        (execute_plan (planRun "Test_DB_Job1") (Except.ok 5)).2 = Except.ok r →
        (step (sessionPending (planRun "Test_DB_Job1"))
          (Event.approve (Except.ok 5))).1.pending_plan = none)
      ∧ (∀ err : PyErr,
          (execute_plan (planRun "Test_DB_Job1") (Except.ok 5)).2 = Except.error err →
          (step (sessionPending (planRun "Test_DB_Job1"))
            (Event.approve (Except.ok 5))).1.pending_plan
            = some (planRun "Test_DB_Job1")))
    ∧ ((∀ r : String,
        (execute_plan (planRun "unknown_job") (Except.ok 5)).2 = Except.ok r →
        (step (sessionPending (planRun "unknown_job"))
          (Event.approve (Except.ok 5))).1.pending_plan = none)
      ∧ (∀ err : PyErr,
          (execute_plan (planRun "unknown_job") (Except.ok 5)).2 = Except.error err →
          (step (sessionPending (planRun "unknown_job"))
            (Event.approve (Except.ok 5))).1.pending_plan
            = some (planRun "unknown_job"))) :=
  ⟨C1_approve_clears_only_on_success (sessionPending (planRun "Test_DB_Job1"))
      (planRun "Test_DB_Job1") (Except.ok 5) rfl rfl,
   C1_approve_clears_only_on_success (sessionPending (planRun "unknown_job"))
      (planRun "unknown_job") (Except.ok 5) rfl rfl⟩

/-- C8 as stated is false in its transcript part: cancelling a pending plan
does clear the gate and makes no backend call, but the cancellation
confirmation is only transient `st.success` output — nothing is appended to
the ordered message history, which here stays empty. -/
theorem C8_counterexample :
    gateOpen (sessionPending (planRun "Test_DB_Job1")) = true
    ∧ (step (sessionPending (planRun "Test_DB_Job1")) Event.cancel).1.messages = []
    ∧ (step (sessionPending (planRun "Test_DB_Job1")) Event.cancel).1.pending_plan
        = none :=
  ⟨rfl, rfl, rfl⟩

/-- C8 amended: `cancel()` on a truthy pending plan transitions the gate to
IDLE, makes no backend call, and emits the cancellation confirmation only as
a transient `st.success` effect; the persistent message history is unchanged
(the notice never appears in it). -/
theorem C8_cancel_clears_without_transcript (s : Session) (plan : Json)
    (hp : s.pending_plan = some plan) (ht : pyTruthy plan = true) :
    (step s Event.cancel).1.pending_plan = none
    ∧ (step s Event.cancel).1.messages = s.messages
    ∧ (step s Event.cancel).2 = [Effect.stSuccess "Action canceled"]
    ∧ ∀ (jid : Int) (ps : Json), Effect.runNow jid ps ∉ (step s Event.cancel).2 := by
  have hg : gateOpen s = true := by unfold gateOpen; rw [hp]; exact ht
  have hstep : step s Event.cancel
      = ({ s with pending_plan := none }, [Effect.stSuccess "Action canceled"]) := by
    show handle_cancel s = _
    unfold handle_cancel
    rw [if_pos hg]
  refine ⟨by rw [hstep], by rw [hstep], by rw [hstep], ?_⟩
  intro jid ps hmem
  rw [hstep] at hmem
  rcases List.mem_singleton.mp hmem with h
  exact Effect.noConfusion h

/-- Witness for the amended C8. -/
theorem C8_cancel_clears_without_transcript_witness :
    (step (sessionPending (planRun "Test_DB_Job1")) Event.cancel).1.pending_plan = none
    ∧ (step (sessionPending (planRun "Test_DB_Job1")) Event.cancel).1.messages
        = (sessionPending (planRun "Test_DB_Job1")).messages
    ∧ (step (sessionPending (planRun "Test_DB_Job1")) Event.cancel).2
        = [Effect.stSuccess "Action canceled"]
    ∧ ∀ (jid : Int) (ps : Json),
        Effect.runNow jid ps ∉ (step (sessionPending (planRun "Test_DB_Job1")) Event.cancel).2 :=
  C8_cancel_clears_without_transcript (sessionPending (planRun "Test_DB_Job1"))
    (planRun "Test_DB_Job1") rfl rfl

theorem handle_submit_no_runNow (s : Session) (ui reply : String) :
    ∀ x ∈ (handle_submit s ui reply).2, x.isRunNow = false := by
  intro x hx
  simp only [handle_submit] at hx
  repeat' split at hx
  all_goals simp only [List.mem_cons, List.mem_singleton, List.not_mem_nil, or_false] at hx
  all_goals rcases hx with rfl | rfl | rfl <;> rfl

theorem handle_cancel_no_runNow (s : Session) :
    ∀ x ∈ (handle_cancel s).2, x.isRunNow = false := by
  intro x hx
  unfold handle_cancel at hx
  split at hx
  · rcases List.mem_singleton.mp hx with rfl; rfl
  · exact absurd hx (List.not_mem_nil _)

theorem runNow_mem_step (s : Session) (e : Event) (jid : Int) (ps : Json)
    (h : Effect.runNow jid ps ∈ (step s e).2) :
    s.pending_plan ≠ none ∧ gateOpen s = true
      ∧ ∃ b : Except Unit Int, e = Event.approve b := by
  cases e with
  | submit ui reply =>
      exact absurd (handle_submit_no_runNow s ui reply _ h) (by intro hc; exact Bool.noConfusion hc)
  | submitFail ui => exact absurd h (List.not_mem_nil _)
  | cancel =>
      exact absurd (handle_cancel_no_runNow s _ h) (by intro hc; exact Bool.noConfusion hc)
  | approve b =>
      by_cases hg : gateOpen s = true
      · exact ⟨gateOpen_pending hg, hg, b, rfl⟩
      · have hstep : step s (Event.approve b) = (s, []) := by
          show handle_approve s b = _
          unfold handle_approve
          rw [if_neg hg]
        rw [hstep] at h
        exact absurd h (List.not_mem_nil _)

theorem execute_plan_count (plan : Json) (b : Except Unit Int) :
    ((execute_plan plan b).1.countP Effect.isRunNow) ≤ 1 := by
  unfold execute_plan execute_databricks_job
  repeat' split
  all_goals simp [List.countP_cons, List.countP_nil, Effect.isRunNow]

theorem step_count_runNow (s : Session) (e : Event) :
    ((step s e).2.countP Effect.isRunNow) ≤ (if e.isApprove then 1 else 0) := by
  cases e with
  | submit ui reply =>
      show List.countP Effect.isRunNow (handle_submit s ui reply).2 ≤ 0
      rw [Nat.le_zero, List.countP_eq_zero]
      intro a ha
      simp [handle_submit_no_runNow s ui reply a ha]
  | submitFail ui => simp [step, Event.isApprove]
  | cancel =>
      show List.countP Effect.isRunNow (handle_cancel s).2 ≤ 0
      rw [Nat.le_zero, List.countP_eq_zero]
      intro a ha
      simp [handle_cancel_no_runNow s a ha]
  | approve b =>
      show List.countP Effect.isRunNow (handle_approve s b).2 ≤ 1
      unfold handle_approve
      by_cases hg : gateOpen s = true
      · rw [if_pos hg]
        cases hp : s.pending_plan with
        | none => simp
        | some plan =>
            have hc := execute_plan_count plan b
            rcases hq : execute_plan plan b with ⟨effs, res⟩
            rw [hq] at hc
            dsimp only
            rw [hq]
            cases res with
            | ok r =>
                dsimp only
                simp [List.countP_append, List.countP_cons, List.countP_nil,
                  Effect.isRunNow] at *
                omega
            | error err => exact hc
      · rw [if_neg hg]
        simp

/-- C2: the `run_now` backend call is issued only by an Approve event fired
while a (truthy) plan is pending — never while the gate is IDLE — and an
event sequence containing no Approve event produces no backend call at all,
whatever error paths it takes. -/
theorem C2_execution_only_on_approve :
    (∀ (s : Session) (e : Event) (jid : Int) (ps : Json),
        Effect.runNow jid ps ∈ (step s e).2 →
        s.pending_plan ≠ none ∧ gateOpen s = true
          ∧ ∃ b : Except Unit Int, e = Event.approve b)
    ∧ (∀ (s : Session) (evs : List Event) (jid : Int) (ps : Json),
        (∀ b : Except Unit Int, Event.approve b ∉ evs) →
        Effect.runNow jid ps ∉ (runEvents s evs).2) := by
  refine ⟨fun s e jid ps h => runNow_mem_step s e jid ps h, ?_⟩
  intro s evs jid ps
  induction evs generalizing s with
  | nil => intro _ hmem; exact List.not_mem_nil _ hmem
  | cons e es ih =>
      intro hnoapp hmem
      simp only [runEvents] at hmem
      rcases List.mem_append.mp hmem with h1 | h2
      · obtain ⟨_, _, b, rfl⟩ := runNow_mem_step s e jid ps h1
        exact hnoapp b (List.mem_cons_self _ _)
      · exact ih (step s e).1 (fun b hb => hnoapp b (List.mem_cons_of_mem _ hb)) h2

/-- Witness for C2: an actual backend call under an Approve on a pending
catalogued plan, and no backend call across an approve-free sequence. -/
theorem C2_execution_only_on_approve_witness :
    ((sessionPending (planRun "Test_DB_Job1")).pending_plan ≠ none
      ∧ gateOpen (sessionPending (planRun "Test_DB_Job1")) = true
      ∧ ∃ b : Except Unit Int, Event.approve (Except.ok 5) = Event.approve b)
    ∧ Effect.runNow 1234567890 (Json.obj [])
        ∉ (runEvents (sessionPending (planRun "Test_DB_Job1"))
            [Event.cancel, Event.submitFail "hi"]).2 := by
  constructor
  · exact C2_execution_only_on_approve.1 (sessionPending (planRun "Test_DB_Job1"))
      (Event.approve (Except.ok 5)) 1234567890 (Json.obj [])
      (List.mem_cons_self _ _)
  · exact C2_execution_only_on_approve.2 (sessionPending (planRun "Test_DB_Job1"))
      [Event.cancel, Event.submitFail "hi"] 1234567890 (Json.obj [])
      (fun b hb => by
        rcases List.mem_cons.mp hb with h | h
        · exact Event.noConfusion h
        · rcases List.mem_singleton.mp h with h'
          exact Event.noConfusion h')

/-- C5: at most one backend call per Approve event, none per Cancel event,
and over any event sequence the number of backend calls is bounded by the
number of Approve events. -/
theorem C5_backend_call_counts :
    (∀ (s : Session) (b : Except Unit Int),
        ((step s (Event.approve b)).2.countP Effect.isRunNow) ≤ 1)
    ∧ (∀ s : Session, ((step s Event.cancel).2.countP Effect.isRunNow) = 0)
    ∧ (∀ (s : Session) (evs : List Event),
        ((runEvents s evs).2.countP Effect.isRunNow)
          ≤ evs.countP Event.isApprove) := by
  refine ⟨?_, ?_, ?_⟩
  · intro s b
    have h := step_count_runNow s (Event.approve b)
    simpa [Event.isApprove] using h
  · intro s
    rw [List.countP_eq_zero]
    intro a ha
    simp [handle_cancel_no_runNow s a ha]
  · intro s evs
    induction evs generalizing s with
    | nil => simp [runEvents]
    | cons e es ih =>
        simp only [runEvents, List.countP_append, List.countP_cons]
        have h1 := step_count_runNow s e
        have h2 := ih (step s e).1
        cases he : e.isApprove
        · have h1' : List.countP Effect.isRunNow (step s e).2 ≤ 0 := by
            rw [he] at h1; exact h1
          show List.countP Effect.isRunNow (step s e).2
              + List.countP Effect.isRunNow (runEvents (step s e).1 es).2
            ≤ List.countP Event.isApprove es
          omega
        · have h1' : List.countP Effect.isRunNow (step s e).2 ≤ 1 := by
            rw [he] at h1; exact h1
          show List.countP Effect.isRunNow (step s e).2
              + List.countP Effect.isRunNow (runEvents (step s e).1 es).2
            ≤ List.countP Event.isApprove es + 1
          omega

/-- Any successfully decoded JSON value is stored as the pending plan by the
submit handler, before any shape validation happens. -/
theorem handle_submit_sets_pending (s : Session) (ui reply jt : String) (plan : Json)
    (h1 : extract_json reply = some jt) (h2 : jt.isEmpty = false)
    (h3 : parseJson jt = some plan) :
    (handle_submit s ui reply).1.pending_plan = some plan := by
  simp only [handle_submit, h1, h2, h3, Bool.false_eq_true, if_false]
  cases ha : getItem plan "action" with
  | error e => rfl
  | ok act =>
      cases hg : getItem plan "arguments" with
      | error e => rfl
      | ok args => rfl

/-- C3 as stated is false: a decoded object missing `arguments.job_name` is
not treated as a parse failure — the handler stores it as `pending_plan`
(line 164 runs before any key is read), so the gate is PENDING, not IDLE. -/
theorem C3_counterexample :
    hasJobNameKey (Json.obj [("action", Json.str "run_databricks_job"),
                             ("arguments", Json.obj [])]) = false
    ∧ (step initSession (Event.submit "run the job"
          "\x7b\"action\": \"run_databricks_job\", \"arguments\": \x7b\x7d\x7d")).1.pending_plan
        = some (Json.obj [("action", Json.str "run_databricks_job"),
                          ("arguments", Json.obj [])]) :=
  ⟨rfl, rfl⟩

/-- C3 amended: the extractor/handler validates nothing before handing the
plan to the gate — every reply whose extracted substring decodes is stored
as `pending_plan`, even when `arguments.job_name` (or any other key) is
missing; missing keys only surface later. -/
theorem C3_no_validation_before_gate (s : Session) (ui reply jt : String) (plan : Json)
    (h1 : extract_json reply = some jt) (h2 : jt.isEmpty = false)
    (h3 : parseJson jt = some plan)
    (h4 : hasJobNameKey plan = false) :
    (step s (Event.submit ui reply)).1.pending_plan = some plan :=
  handle_submit_sets_pending s ui reply jt plan h1 h2 h3

/-- Witness for the amended C3 at the job-name-free reply. -/
theorem C3_no_validation_before_gate_witness :
    (step initSession (Event.submit "run the job"
        "\x7b\"action\": \"run_databricks_job\", \"arguments\": \x7b\x7d\x7d")).1.pending_plan
      = some (Json.obj [("action", Json.str "run_databricks_job"),
                        ("arguments", Json.obj [])]) :=
  C3_no_validation_before_gate initSession "run the job"
    "\x7b\"action\": \"run_databricks_job\", \"arguments\": \x7b\x7d\x7d"
    "\x7b\"action\": \"run_databricks_job\", \"arguments\": \x7b\x7d\x7d"
    (Json.obj [("action", Json.str "run_databricks_job"), ("arguments", Json.obj [])])
    rfl rfl rfl rfl

/-- C9: `pending_plan` is a single optional slot (at most one pending plan by
construction), and a user turn whose reply decodes to a new plan overwrites
whatever plan was lingering — only the most recent plan is pending. -/
theorem C9_single_pending_overwrite (s : Session) (old : Json) (ui reply jt : String)
    (plan : Json)
    (hold : s.pending_plan = some old)
    (h1 : extract_json reply = some jt) (h2 : jt.isEmpty = false)
    (h3 : parseJson jt = some plan) :
    (step s (Event.submit ui reply)).1.pending_plan = some plan :=
  handle_submit_sets_pending s ui reply jt plan h1 h2 h3

/-- Witness for C9: a session already holding the catalogued plan receives a
turn proposing a different job; the old plan is gone, the new one pending. -/
theorem C9_single_pending_overwrite_witness :
    (step (sessionPending (planRun "Test_DB_Job1")) (Event.submit "run the other job"
        "\x7b\"action\": \"run_databricks_job\", \"arguments\": \x7b\"job_name\": \"Other\", \"parameters\": \x7b\x7d\x7d\x7d")).1.pending_plan
      = some (planRun "Other") :=
  C9_single_pending_overwrite (sessionPending (planRun "Test_DB_Job1"))
    (planRun "Test_DB_Job1") "run the other job"
    "\x7b\"action\": \"run_databricks_job\", \"arguments\": \x7b\"job_name\": \"Other\", \"parameters\": \x7b\x7d\x7d\x7d"
    "\x7b\"action\": \"run_databricks_job\", \"arguments\": \x7b\"job_name\": \"Other\", \"parameters\": \x7b\x7d\x7d\x7d"
    (planRun "Other") rfl rfl rfl rfl

theorem firstIdxOf_append_of_not_mem (c : Char) (l1 l2 : List Char) (h : c ∉ l1) :
    firstIdxOf c (l1 ++ l2) = (firstIdxOf c l2).map (· + l1.length) := by
  induction l1 with
  | nil => cases hf : firstIdxOf c l2 <;> simp [hf]
  | cons x xs ih =>
      have hne : ¬(x == c) = true := fun hxc =>
        h (by rw [List.mem_cons]; left; exact (beq_iff_eq.mp hxc).symm)
      rw [List.cons_append]
      simp only [firstIdxOf, if_neg hne,
        ih (fun hc => h (List.mem_cons_of_mem _ hc))]
      cases hf : firstIdxOf c l2 with
      | none => simp [hf]
      | some j => simp [hf]; omega

theorem lastIdxOf_not_mem (c : Char) (l : List Char) (h : c ∉ l) :
    lastIdxOf c l = none := by
  induction l with
  | nil => rfl
  | cons x xs ih =>
      have hne : ¬(x == c) = true := fun hxc =>
        h (by rw [List.mem_cons]; left; exact (beq_iff_eq.mp hxc).symm)
      simp only [lastIdxOf, ih (fun hc => h (List.mem_cons_of_mem _ hc)), if_neg hne]

theorem lastIdxOf_append_none (c : Char) (l1 l2 : List Char)
    (h : lastIdxOf c l2 = none) :
    lastIdxOf c (l1 ++ l2) = lastIdxOf c l1 := by
  induction l1 with
  | nil => simpa using h
  | cons x xs ih =>
      rw [List.cons_append]
      simp only [lastIdxOf, ih]

theorem lastIdxOf_append_some (c : Char) (l1 l2 : List Char) (j : Nat)
    (h : lastIdxOf c l2 = some j) :
    lastIdxOf c (l1 ++ l2) = some (l1.length + j) := by
  induction l1 with
  | nil => simpa using h
  | cons x xs ih =>
      rw [List.cons_append]
      simp only [lastIdxOf, ih]
      exact congrArg some (by simp [List.length_cons]; omega)

theorem lastIdxOf_getLast (c : Char) (l : List Char) (h : l.getLast? = some c) :
    lastIdxOf c l = some (l.length - 1) := by
  induction l with
  | nil => exact Option.noConfusion h
  | cons x xs ih =>
      cases xs with
      | nil =>
          have hx : x = c := by
            rw [show ([x] : List Char).getLast? = some x from rfl] at h
            exact Option.some.inj h
          simp [lastIdxOf, hx]
      | cons y ys =>
          have h' : (y :: ys).getLast? = some c := by
            rw [← List.getLast?_cons_cons]
            exact h
          rw [show lastIdxOf c (x :: y :: ys)
                = (match lastIdxOf c (y :: ys) with
                   | some j => some (j + 1)
                   | none => if x == c then some 0 else none) from rfl,
              ih h']
          exact congrArg some (by simp only [List.length_cons]; omega)

/-- C6 as stated is false: on a text holding a well-formed JSON object
followed by further prose and a second object, the extractor does not decode
only the first object — the greedy pattern grabs everything from the first
opening brace to the last closing brace, and decoding that whole span fails.
-/
theorem C6_counterexample :
    extract_json "\x7b\"a\": 1\x7d x \x7b\"b\": 2\x7d"
        = some "\x7b\"a\": 1\x7d x \x7b\"b\": 2\x7d"
    ∧ extract_json "\x7b\"a\": 1\x7d x \x7b\"b\": 2\x7d"
        ≠ some "\x7b\"a\": 1\x7d"
    ∧ parseJson "\x7b\"a\": 1\x7d x \x7b\"b\": 2\x7d" = none := by
  refine ⟨rfl, ?_, rfl⟩
  intro hcontra
  rw [show extract_json "\x7b\"a\": 1\x7d x \x7b\"b\": 2\x7d"
      = some "\x7b\"a\": 1\x7d x \x7b\"b\": 2\x7d" from rfl] at hcontra
  exact absurd (Option.some.inj hcontra) (by decide)

/-- C6 amended: the extractor takes the single greedy span from the first
opening brace to the last closing brace of the text and hands exactly that
substring to the decoder; a decode failure of the span falls back to
conversational handling of the reply. -/
theorem C6_extractor_greedy_span (a s b : String)
    (ha : '\x7b' ∉ a.toList) (hb : '\x7d' ∉ b.toList)
    (hs1 : s.toList.head? = some '\x7b') (hs2 : s.toList.getLast? = some '\x7d') :
    extract_json (a ++ s ++ b) = some s := by
  have hdata : (a ++ s ++ b).toList = a.toList ++ (s.toList ++ b.toList) := by
    show (a ++ s ++ b).data = a.data ++ (s.data ++ b.data)
    rw [String.data_append, String.data_append, List.append_assoc]
  obtain ⟨S', hS⟩ : ∃ S', s.toList = '\x7b' :: S' := by
    cases hsl : s.toList with
    | nil => rw [hsl] at hs1; exact Option.noConfusion hs1
    | cons x xs =>
        rw [hsl] at hs1
        injection hs1 with hx
        exact ⟨xs, by rw [hx]⟩
  have hSlen : 2 ≤ s.toList.length := by
    rw [hS]
    cases S' with
    | nil =>
        exfalso
        rw [hS] at hs2
        exact absurd hs2 (by decide)
    | cons y ys => simp only [List.length_cons]; omega
  have hfirst : firstIdxOf '\x7b' (a.toList ++ (s.toList ++ b.toList))
      = some a.toList.length := by
    rw [firstIdxOf_append_of_not_mem _ _ _ ha, hS, List.cons_append]
    rw [show firstIdxOf '\x7b' ('\x7b' :: (S' ++ b.toList)) = some 0 from by
      simp [firstIdxOf]]
    simp
  have hlastS : lastIdxOf '\x7d' s.toList = some (s.toList.length - 1) :=
    lastIdxOf_getLast _ _ hs2
  have hlastSB : lastIdxOf '\x7d' (s.toList ++ b.toList)
      = some (s.toList.length - 1) := by
    rw [lastIdxOf_append_none _ _ _ (lastIdxOf_not_mem _ _ hb)]
    exact hlastS
  have hlast : lastIdxOf '\x7d' (a.toList ++ (s.toList ++ b.toList))
      = some (a.toList.length + (s.toList.length - 1)) :=
    lastIdxOf_append_some _ _ _ _ hlastSB
  simp only [extract_json, hdata, hfirst, hlast]
  have hlt : a.toList.length < a.toList.length + (s.toList.length - 1) := by omega
  rw [if_pos hlt]
  congr 1
  rw [List.drop_left]
  have harith : a.toList.length + (s.toList.length - 1) - a.toList.length + 1
      = s.toList.length := by omega
  rw [harith, List.take_left]
  rfl

/-- Witness for the amended C6: prose around one object yields exactly that
object. -/
theorem C6_extractor_greedy_span_witness :
    extract_json ("Sure: " ++ "\x7b\"a\": 1\x7d" ++ " thanks")
      = some "\x7b\"a\": 1\x7d" :=
  C6_extractor_greedy_span "Sure: " "\x7b\"a\": 1\x7d" " thanks"
    (by decide) (by decide) (by decide) (by decide)
